import Mathlib

/-!
Verification development for the `crawlers` repository (multi-site news
crawler).  The Python source under `src/crawler` is shallowly embedded:
pure helper functions become Lean functions, the stateful crawl loop and
the article store become explicit state-transition systems, Python
exceptions become `Except`/`Option`, and `datetime` values become an
explicit calendar model.  All definitions are translated from the source
files (`crawler/caijing/core/crawler.py`, `crawler/common/date_extractor.py`,
`crawler/common/article.py`, `crawler/common/downloader.py`,
`crawler/caijing/core/parser.py`, `crawler/caijing/core/article_caijing.py`).
-/

namespace Crawlers

/-! ## Character and substring utilities

Models of the Python string operations used by the crawler:
`str.lower` (ASCII case folding as used by `re.IGNORECASE` on the
ASCII patterns that occur in the source), substring membership
(`pat in s`), prefix tests, whitespace handling of `str.split()` /
`str.strip()` and `re.sub(r'\s+', ' ', ...)`. -/

/-- ASCII lower-casing of a single character (model of `str.lower` on the
ASCII range, which is all the source's case-insensitive patterns use). -/
def asciiLower (c : Char) : Char :=
  if 65 ≤ c.toNat ∧ c.toNat ≤ 90 then Char.ofNat (c.toNat + 32) else c

/-- ASCII decimal digit, the `\d` class of the source's regexes on the
inputs it is applied to. -/
def isDigitCh (c : Char) : Bool := 48 ≤ c.toNat && c.toNat ≤ 57

/-- ASCII letter, the `[A-Za-z]` class of the source's regexes. -/
def isAlphaCh (c : Char) : Bool :=
  (65 ≤ c.toNat && c.toNat ≤ 90) || (97 ≤ c.toNat && c.toNat ≤ 122)

/-- Whitespace, the `\s` class / `str.split()` separators. -/
def isWsCh (c : Char) : Bool :=
  c.toNat = 32 || c.toNat = 9 || c.toNat = 10 || c.toNat = 13 ||
  c.toNat = 12 || c.toNat = 11

/-- `listHasPref pat s` is true when `pat` is an initial segment of `s`. -/
def listHasPref : List Char → List Char → Bool
  | [], _ => true
  | _ :: _, [] => false
  | a :: ps, b :: ss => a == b && listHasPref ps ss

/-- `listHasSub s pat` is true when `pat` occurs contiguously inside `s`:
the model of Python's `pat in s` substring test. -/
def listHasSub : List Char → List Char → Bool
  | [], pat => listHasPref pat []
  | s@(_ :: t), pat => listHasPref pat s || listHasSub t pat

/-- Python's `pat in s` on strings. -/
def containsSub (s pat : String) : Bool := listHasSub s.toList pat.toList

/-! ## Calendar model of Python `datetime`

`datetime(year, month, day)` validates its arguments against the
proleptic Gregorian calendar (raising `ValueError` otherwise); a full
`datetime` value additionally carries a time of day, which we model at
second granularity as `sec < 86400`.  `timedelta` subtraction and
`delta.days` are modelled through an epoch-day count (`daysFromCivil`,
the standard civil-from-days correspondence, which is the arithmetic
underlying `datetime`'s ordinal). -/

/-- Gregorian leap-year rule, as used by `datetime`. -/
def isLeap (y : Nat) : Bool := (y % 4 == 0 && y % 100 != 0) || y % 400 == 0

/-- Number of days of month `m` in year `y` (1-based month). -/
def daysInMonth (y m : Nat) : Nat :=
  if m = 2 then (if isLeap y then 29 else 28)
  else if m = 4 ∨ m = 6 ∨ m = 9 ∨ m = 11 then 30
  else 31

/-- A calendar date (the date part of a Python `datetime`). -/
structure DateT where
  year : Nat
  month : Nat
  day : Nat
  deriving DecidableEq, Repr

/-- Validity of a date under `datetime`'s constructor rules
(`MINYEAR = 1`, `MAXYEAR = 9999`, day within the month). -/
def validDate (d : DateT) : Bool :=
  1 ≤ d.year && d.year ≤ 9999 && 1 ≤ d.month && d.month ≤ 12 &&
  1 ≤ d.day && d.day ≤ daysInMonth d.year d.month

/-- Model of `datetime(year, month, day)`: `some` midnight date on success,
`none` when the constructor would raise `ValueError`. -/
def mkDateO (y m d : Nat) : Option DateT :=
  if validDate ⟨y, m, d⟩ then some ⟨y, m, d⟩ else none

/-- Epoch day number of a civil date (days-from-civil correspondence for
the proleptic Gregorian calendar); differences of this count model
`(datetime - datetime).days` for midnight datetimes. -/
def daysFromCivil (date : DateT) : Int :=
  let y : Int := if date.month ≤ 2 then (date.year : Int) - 1 else (date.year : Int)
  let era : Int := Int.fdiv y 400
  let yoe : Int := y - era * 400
  let mp : Int := if date.month > 2 then (date.month : Int) - 3 else (date.month : Int) + 9
  let doy : Int := Int.fdiv (153 * mp + 2) 5 + (date.day : Int) - 1
  let doe : Int := yoe * 365 + Int.fdiv yoe 4 - Int.fdiv yoe 100 + doy
  era * 146097 + doe - 719468

/-- A full `datetime` value: a calendar date plus a time of day in
seconds (`sec < 86400` for values produced by `datetime.now()`). -/
structure DT where
  date : DateT
  sec : Nat
  deriving DecidableEq, Repr

/-- The calendar day immediately before `d` (proleptic Gregorian). -/
def prevDay (d : DateT) : DateT :=
  if d.day > 1 then ⟨d.year, d.month, d.day - 1⟩
  else if d.month > 1 then ⟨d.year, d.month - 1, daysInMonth d.year (d.month - 1)⟩
  else ⟨d.year - 1, 12, 31⟩

/-- `now - timedelta(days = k)`: whole-day subtraction leaves the time of
day unchanged and moves the calendar date back `k` days. -/
def dtSubDays (now : DT) (k : Nat) : DT := ⟨prevDay^[k] now.date, now.sec⟩

/-- `now - timedelta(seconds = k)` on the calendar model: borrow whole
days, then adjust the time of day. -/
def dtSubSeconds (now : DT) (k : Nat) : DT :=
  let d := k / 86400
  let r := k % 86400
  if r ≤ now.sec then ⟨prevDay^[d] now.date, now.sec - r⟩
  else ⟨prevDay^[d + 1] now.date, now.sec + 86400 - r⟩

/-- `now - timedelta(minutes = k)`. -/
def dtSubMinutes (now : DT) (k : Nat) : DT := dtSubSeconds now (k * 60)

/-- `now - timedelta(hours = k)`. -/
def dtSubHours (now : DT) (k : Nat) : DT := dtSubSeconds now (k * 3600)

/-- `(now - article).days` where `article` is a midnight `datetime`:
because `0 ≤ now.sec < 86400`, the floor of the difference in days is
exactly the difference of the epoch-day numbers of the two dates. -/
def deltaDays (now : DT) (article : DateT) : Int :=
  daysFromCivil now.date - daysFromCivil article

/-! ## A small regex model

The regular expressions appearing in `date_extractor.py` and
`crawler.py` are all built from the atoms `\d{n}`, `\d{lo,hi}`, `\d+`,
`[A-Za-z]+`, `\s+`, `\s*`, literal characters, an optional character
(`,?` / `s?`) and an end anchor (`$`).  We model a pattern as a token
list and implement Python's backtracking semantics: each quantifier
offers its candidate consumptions in regex preference order (greedy:
longest first), `matchToks` backtracks through them, and `searchToks`
returns the groups of the leftmost match, exactly as `re.search`.
Every digit/alpha token is a capturing group, matching how the source's
patterns parenthesise precisely those atoms. -/

inductive Tok where
  /-- `(\d{n})`, capturing. -/
  | ds (n : Nat)
  /-- `(\d{lo,hi})`, greedy, capturing. -/
  | dRange (lo hi : Nat)
  /-- `(\d+)`, greedy, capturing. -/
  | dPlus
  /-- `([A-Za-z]+)`, greedy, capturing. -/
  | alphaPlus
  /-- A literal character. -/
  | lit (c : Char)
  /-- `\s+`, greedy, non-capturing. -/
  | wsPlus
  /-- `\s*`, greedy, non-capturing. -/
  | wsStar
  /-- `c?`, greedy, non-capturing. -/
  | optChar (c : Char)
  /-- `$` end anchor. -/
  | eos
  deriving Repr

/-- Length of the maximal run of characters satisfying `p` at the head. -/
def runLen (p : Char → Bool) : List Char → Nat
  | [] => 0
  | c :: cs => if p c then runLen p cs + 1 else 0

/-- Descending list `[n, n-1, ..., lo]` of candidate consumption lengths
for a greedy quantifier. -/
def descFrom (n lo : Nat) : List Nat :=
  if n < lo then [] else (List.range (n + 1 - lo)).map (fun i => n - i)

/-- The candidate `(captured group?, rest)` pairs a token offers on input
`s`, in regex preference order. -/
def tokCandidates (t : Tok) (s : List Char) : List (Option (List Char) × List Char) :=
  match t with
  | .ds n =>
    if (s.take n).length = n ∧ (s.take n).all isDigitCh then
      [(some (s.take n), s.drop n)]
    else []
  | .dRange lo hi =>
    let m := min (runLen isDigitCh s) hi
    (descFrom m lo).map (fun k => (some (s.take k), s.drop k))
  | .dPlus =>
    let m := runLen isDigitCh s
    (descFrom m 1).map (fun k => (some (s.take k), s.drop k))
  | .alphaPlus =>
    let m := runLen isAlphaCh s
    (descFrom m 1).map (fun k => (some (s.take k), s.drop k))
  | .lit c =>
    match s with
    | [] => []
    | b :: rest => if b = c then [(none, rest)] else []
  | .wsPlus =>
    let m := runLen isWsCh s
    (descFrom m 1).map (fun k => (none, s.drop k))
  | .wsStar =>
    let m := runLen isWsCh s
    (descFrom m 0).map (fun k => (none, s.drop k))
  | .optChar c =>
    match s with
    | [] => [(none, [])]
    | b :: rest => if b = c then [(none, rest), (none, s)] else [(none, s)]
  | .eos => if s.isEmpty then [(none, [])] else []

/-- Backtracking matcher for a token list at the current position;
returns the captured groups of the first (regex-order) full match. -/
def matchToks : List Tok → List Char → Option (List String)
  | [], _ => some []
  | t :: ts, s =>
    (tokCandidates t s).findSome? (fun cand =>
      (matchToks ts cand.2).map (fun gs =>
        match cand.1 with
        | some g => String.mk g :: gs
        | none => gs))

/-- `re.search`: try the pattern at each position left to right, return
the groups of the leftmost match. -/
def searchToks (ts : List Tok) (s : List Char) : Option (List String) :=
  match matchToks ts s with
  | some gs => some gs
  | none =>
    match s with
    | [] => none
    | _ :: rest => searchToks ts rest

/-! ## `DateExtractor` (`crawler/common/date_extractor.py`)

`DateExtractor.extract_date` normalises heterogeneous date text: it
first cleans the text (`' '.join(text.split())`, then strips a leading
"发布于|发表于|Published on|Posted on|Date:" marker case-insensitively),
tries the relative-time patterns against `datetime.now()`, then walks
`PATTERNS` in order; for each matching pattern the captured groups are
interpreted (English month name in first or second position, otherwise
numeric year/month/day), `month`/`day` are range-checked (`1..12`,
`1..31`, failing values fall through to the next pattern), a two-digit
year gets `+= 2000`, and `datetime(year, month, day)` is built
(`ValueError` also falls through to the next pattern). -/

/-- The model of Python `int()` on the all-digit captured groups (which
is the only place the source applies it). -/
def pyInt (s : String) : Nat :=
  s.toList.foldl (fun acc c => acc * 10 + (c.toNat - 48)) 0

/-- Split a character list at separators chosen by `p`, keeping empty
segments (the behaviour of Python's `str.split(sep)`). -/
def splitChars (p : Char → Bool) : List Char → List (List Char)
  | [] => [[]]
  | c :: cs =>
    match splitChars p cs with
    | [] => [[]]
    | g :: gs => if p c then [] :: g :: gs else (c :: g) :: gs

/-- Join character-list segments with a single separator character. -/
def joinWith (sep : Char) : List (List Char) → List Char
  | [] => []
  | [g] => g
  | g :: gs => g ++ sep :: joinWith sep gs

/-- `' '.join(text.split())`: collapse all whitespace runs to single
spaces and trim. -/
def normalizeWS (t : String) : String :=
  String.mk (joinWith ' ' (((splitChars isWsCh t.toList).filter (fun g => g ≠ []))))

/-- The lower-cased alternatives of the anchored marker
`^(发布于|发表于|Published on|Posted on|Date:)\s*` (the regex is applied
with `re.IGNORECASE`; only its ASCII letters are case-sensitive). -/
def pubMarks : List String := ["发布于", "发表于", "published on", "posted on", "date:"]

/-- `re.sub(r'^(发布于|...|Date:)\s*', '', text, flags=re.IGNORECASE)`:
drop the first matching alternative at the start of the text together
with the whitespace that follows it. -/
def stripPubMark (t : String) : String :=
  let low := t.toList.map asciiLower
  match pubMarks.find? (fun p => listHasPref p.toList low) with
  | some p => String.mk ((t.toList.drop p.toList.length).dropWhile (fun c => isWsCh c))
  | none => t

/-- `DateExtractor.MONTH_MAP`. -/
def monthMap (s : String) : Option Nat :=
  (([("Jan", 1), ("Feb", 2), ("Mar", 3), ("Apr", 4),
     ("May", 5), ("Jun", 6), ("Jul", 7), ("Aug", 8),
     ("Sep", 9), ("Oct", 10), ("Nov", 11), ("Dec", 12)] :
     List (String × Nat)).find? (fun e => e.1 = s)).map (fun e => e.2)

/-- `parts[0][:3].title()`: first three characters, first letter
upper-cased and the rest lower-cased. -/
def titleCase3 (s : String) : String :=
  match (s.toList.take 3) with
  | [] => ""
  | c :: cs => String.mk (c.toUpper :: cs.map asciiLower)

/-- The shared tail of the `PATTERNS` loop body once `(year, month, day)`
integers are in hand: range-validate month and day (`continue` on
failure), add 2000 to a two-digit year, and construct the `datetime`
(`ValueError` is a `continue` as well, hence `none`). -/
def finishYMD (y m d : Nat) : Option DT :=
  if 1 ≤ m ∧ m ≤ 12 ∧ 1 ≤ d ∧ d ≤ 31 then
    (mkDateO (if y < 100 then y + 2000 else y) m d).map (fun date => ⟨date, 0⟩)
  else none

/-- Does the first character of a captured group match `re.match(r'[A-Za-z]', ...)`? -/
def alphaStart (s : String) : Bool :=
  match s.toList with
  | [] => false
  | c :: _ => isAlphaCh c

/-- Interpretation of a matched pattern's groups (`parts`), lines 84-115
of `date_extractor.py`: English month name in first or second position
(unknown names `continue`), otherwise numeric `year, month, day`;
missing third group for the year-less English patterns defaults to
`datetime.now().year`. -/
def processParts (now : DT) (parts : List String) : Option DT :=
  match parts with
  | [] => none
  | p0 :: rest =>
    if alphaStart p0 then
      match monthMap (titleCase3 p0) with
      | none => none
      | some mo =>
        match rest with
        | [] => none
        | p1 :: restr =>
          let day := pyInt p1
          let year := match restr with
            | p2 :: _ => pyInt p2
            | [] => now.date.year
          finishYMD year mo day
    else
      match rest with
      | [] => none
      | p1 :: restr =>
        if alphaStart p1 then
          match monthMap (titleCase3 p1) with
          | none => none
          | some mo =>
            let day := pyInt p0
            let year := match restr with
              | p2 :: _ => pyInt p2
              | [] => now.date.year
            finishYMD year mo day
        else
          match restr with
          | [] => none
          | p2 :: _ => finishYMD (pyInt p0) (pyInt p1) (pyInt p2)

/-- `DateExtractor.PATTERNS`, in source order. -/
def dePatterns : List (List Tok) :=
  [ [.ds 4, .lit '-', .ds 2, .lit '-', .ds 2],
    [.ds 4, .lit '/', .ds 2, .lit '/', .ds 2],
    [.ds 4, .lit '年', .dRange 1 2, .lit '月', .dRange 1 2, .lit '日'],
    [.ds 4, .lit '.', .dRange 1 2, .lit '.', .dRange 1 2],
    [.alphaPlus, .wsPlus, .dRange 1 2, .optChar ',', .wsStar, .ds 4],
    [.dRange 1 2, .wsPlus, .alphaPlus, .wsPlus, .ds 4],
    [.alphaPlus, .wsPlus, .dRange 1 2],
    [.dRange 1 2, .wsPlus, .alphaPlus],
    [.ds 2, .lit '-', .ds 2, .lit '-', .ds 2],
    [.ds 2, .lit '/', .ds 2, .lit '/', .ds 2] ]

/-- `DateExtractor.RELATIVE_PATTERNS`: each pattern paired with its
`time_func` (all resolved against `datetime.now()`). -/
def deRelative : List (List Tok × (DT → List String → DT)) :=
  [ ([.dPlus, .wsStar, .lit '分', .lit '钟', .lit '前'],
      fun now gs => dtSubMinutes now (pyInt (gs.headD ""))),
    ([.dPlus, .wsStar, .lit '小', .lit '时', .lit '前'],
      fun now gs => dtSubHours now (pyInt (gs.headD ""))),
    ([.dPlus, .wsStar, .lit '天', .lit '前'],
      fun now gs => dtSubDays now (pyInt (gs.headD ""))),
    ([.lit '昨', .lit '天'], fun now _ => dtSubDays now 1),
    ([.lit '前', .lit '天'], fun now _ => dtSubDays now 2),
    ([.lit '刚', .lit '刚'], fun now _ => now) ]

/-- The relative-pattern loop: first pattern that matches wins. -/
def tryRelative (now : DT) (text : List Char) :
    List (List Tok × (DT → List String → DT)) → Option DT
  | [] => none
  | (toks, f) :: rest =>
    match searchToks toks text with
    | some gs => some (f now gs)
    | none => tryRelative now text rest

/-- The `PATTERNS` loop: first pattern that matches *and* whose groups
survive interpretation/validation wins; a failing interpretation
(`continue`) moves on to the next pattern. -/
def tryPats (now : DT) (text : List Char) : List (List Tok) → Option DT
  | [] => none
  | toks :: rest =>
    match searchToks toks text with
    | some gs =>
      match processParts now gs with
      | some dt => some dt
      | none => tryPats now text rest
    | none => tryPats now text rest

/-- `DateExtractor.extract_date` (returning the `datetime`-valued result;
`return_str` only reformats it). -/
def extractDate (now : DT) (text : String) : Option DT :=
  if text = "" then none
  else
    let t := (stripPubMark (normalizeWS text)).toList
    match tryRelative now t deRelative with
    | some dt => some dt
    | none => tryPats now t dePatterns

/-! ## Extraction pipeline gate
(`Article.from_html` in `crawler/common/article.py`,
`ArticleParser.parse_article` in `crawler/caijing/core/parser.py`)

The field extractors operate on parsed HTML through CSS selectors; the
embedding takes their results (`title`, `publish_date`, `author`,
`summary` as produced by `ArticleCaijing._parse`) as input and models
the validation gate that decides whether an `Article` is produced. -/

/-- The field values `ArticleCaijing._parse` assigns from the HTML
(`publish_date` is `None` when no date could be resolved). -/
structure ExtractResult where
  title : String
  publishDate : Option DateT
  author : String
  summary : String

/-- The in-memory `Article` object after `_parse` has run: `source` is
set to the URL, `authors` is `[author]` when an author was found. -/
structure ArticleM where
  url : String
  title : String
  publishDate : Option DateT
  authors : List String
  summary : String

/-- `cls(url=url, html=html, config=config)` followed by
`ArticleCaijing._parse`. -/
def mkParsedArticle (url : String) (ext : ExtractResult) : ArticleM :=
  { url := url
    title := ext.title
    publishDate := ext.publishDate
    authors := if ext.author ≠ "" then [ext.author] else []
    summary := ext.summary }

/-- `Article.from_html`: build the article, then reject it unless title,
publish date and body text are all non-empty. -/
def fromHtml (url : String) (ext : ExtractResult) : Option ArticleM :=
  let article := mkParsedArticle url ext
  if article.title = "" then none
  else if article.publishDate = none then none
  else if article.summary = "" then none
  else some article

/-- `ArticleParser.parse_article`: parameter validation (`html`/`config`/
`url` present, required selectors configured), then `from_html`, then a
re-check that title and summary are non-empty. -/
def parseArticleP (htmlOk : Bool) (configOk : Bool) (urlNonEmpty : Bool)
    (hasRequiredSelectors : Bool) (url : String) (ext : ExtractResult) :
    Option ArticleM :=
  if ¬ htmlOk then none
  else if ¬ configOk then none
  else if ¬ urlNonEmpty then none
  else if ¬ hasRequiredSelectors then none
  else
    match fromHtml url ext with
    | none => none
    | some article =>
      if article.title = "" ∨ article.summary = "" then none else some article

/-- `MultiSiteCrawler._process_article`: the articles handed to the
store (`save_article`) — exactly the parse results that are not `None`. -/
def storeCalls (parseResult : Option ArticleM) : List ArticleM :=
  match parseResult with
  | some a => [a]
  | none => []

/-! ## Article store (`MultiSiteCrawler.save_article` in
`crawler/caijing/core/crawler.py`, `ArticleCaijing.to_text`)

The filesystem is modelled as an association list from path to file
content where a write prepends (so lookup sees the newest write, i.e.
overwrite semantics).  Python's per-process string `hash` is an
arbitrary but fixed function, passed as a parameter. -/

/-- Zero-pad to 2 digits (`strftime` `%m`/`%d`). -/
def pad2 (n : Nat) : String := if n < 10 then "0" ++ toString n else toString n

/-- Zero-pad to 4 digits (`strftime` `%Y`). -/
def pad4 (n : Nat) : String :=
  if n < 10 then "000" ++ toString n
  else if n < 100 then "00" ++ toString n
  else if n < 1000 then "0" ++ toString n
  else toString n

/-- `publish_date.strftime('%Y-%m-%d')`. -/
def dateStrOf (d : DateT) : String := pad4 d.year ++ "-" ++ pad2 d.month ++ "-" ++ pad2 d.day

/-- `url.split('/')[2]`: the host part of a scheme-qualified URL. -/
def urlHost (url : String) : String :=
  String.mk (((splitChars (fun c => c = '/') url.toList).drop 2).headD [])

/-- `MultiSiteCrawler.clean_filename`: strip the characters
`\ / * ? : " < > |` (given here by their codes). -/
def cleanFilename (title : String) : String :=
  String.mk (title.toList.filter (fun c =>
    ¬ (c.toNat = 92 ∨ c.toNat = 47 ∨ c.toNat = 42 ∨ c.toNat = 63 ∨
       c.toNat = 58 ∨ c.toNat = 34 ∨ c.toNat = 60 ∨ c.toNat = 62 ∨ c.toNat = 124)))

/-- An article as handed to `save_article` (its publish date is present:
`parse_article` only returns articles that passed the `from_html` gate). -/
structure ArticleS where
  url : String
  title : String
  publishDate : DateT
  authors : List String
  summary : String

/-- `ArticleCaijing.to_text`: `"\n".join([标题, 发布日期, 来源, 网站]
(+ 作者) + ["", 正文：, summary])`; `source` is the article's URL. -/
def toText (a : ArticleS) : String :=
  let pre := "标题：" ++ a.title ++ "\n发布日期：" ++ dateStrOf a.publishDate ++ "\n"
  let base := pre ++ ("来源：" ++ a.url) ++ ("\n网站：" ++ urlHost a.url)
  let withAuthors :=
    if a.authors ≠ [] then base ++ "\n作者：" ++ String.intercalate ", " a.authors
    else base
  withAuthors ++ "\n\n正文：\n" ++ a.summary

/-- The mutable state `save_article` touches: the files on disk, the
per-site and global counters, and the per-domain dedup cache. -/
structure StoreState where
  fs : List (String × String)
  savedCount : Nat
  totalCount : Nat
  cache : List String
  deriving DecidableEq, Repr

/-- `os.path.exists` + `open(...).read()`. -/
def fsLookup (fs : List (String × String)) (p : String) : Option String :=
  (fs.find? (fun e => e.1 == p)).map (fun e => e.2)

/-- The storage path `save_dir/YYYY-MM-DD/domain/<cleaned title>.txt`
(with the `article_<hash(url)>` fallback for titles that clean to
nothing). -/
def savePath (pyHash : String → Int) (saveDir cfgDomain : String) (a : ArticleS) : String :=
  let title0 := cleanFilename a.title
  let title := if title0 = "" then "article_" ++ toString (pyHash a.url) else title0
  saveDir ++ "/" ++ dateStrOf a.publishDate ++ "/" ++ cfgDomain ++ "/" ++ title ++ ".txt"

/-- `MultiSiteCrawler.save_article`: if a file already exists at the
derived path and embeds `来源：<url>`, skip silently; otherwise write the
file, bump both counters and add the URL to the dedup cache. -/
def saveArticle (pyHash : String → Int) (saveDir cfgDomain : String)
    (a : ArticleS) (s : StoreState) : StoreState :=
  let path := savePath pyHash saveDir cfgDomain a
  match fsLookup s.fs path with
  | some content =>
    if containsSub content ("来源：" ++ a.url) then s
    else
      { fs := (path, toText a) :: s.fs
        savedCount := s.savedCount + 1
        totalCount := s.totalCount + 1
        cache := a.url :: s.cache }
  | none =>
    { fs := (path, toText a) :: s.fs
      savedCount := s.savedCount + 1
      totalCount := s.totalCount + 1
      cache := a.url :: s.cache }

/-! ## URL parsing (`urllib.parse.urlparse`, the parts the source uses) -/

/-- Characters allowed in a URL scheme after the leading letter. -/
def schemeChar (c : Char) : Bool :=
  isAlphaCh c || isDigitCh c || c = '+' || c = '-' || c = '.'

structure UrlParts where
  scheme : String
  netloc : String
  deriving DecidableEq, Repr

/-- `urlparse(url)` restricted to `scheme` and `netloc`: the scheme is a
leading `[A-Za-z][A-Za-z0-9+.-]*` before `:` (lower-cased), the netloc
follows `//` and runs to the next `/`, `?` or `#`. -/
def urlparseM (url : String) : UrlParts :=
  let cs := url.toList
  let pre := cs.takeWhile schemeChar
  let (scheme, rest) :=
    match cs.drop pre.length with
    | ':' :: r2 =>
      if pre ≠ [] ∧ isAlphaCh (pre.headD '0') then (String.mk (pre.map asciiLower), r2)
      else ("", cs)
    | _ => ("", cs)
  let netloc :=
    if listHasPref ['/', '/'] rest then
      (rest.drop 2).takeWhile (fun c => c ≠ '/' ∧ c ≠ '?' ∧ c ≠ '#')
    else []
  ⟨scheme, String.mk netloc⟩

/-! ## Link filtering (`MultiSiteCrawler.is_valid_url`,
`crawler/caijing/core/crawler.py` 158-249)

The body runs inside `try/except Exception: return False`; the one
raising operation on its paths is `datetime(year, month, day)` on the
date parsed from the URL path, so the body is modelled as
`Except Unit Bool` with `.error` at that construction, and
`is_valid_url` catches the error into `False`.  The robots lookup
`robots_parser.is_url_allowed(url, netloc)` is a pure lookup against
cached rules and is passed in as a function. -/

/-- `re.match(r'.*/\d{8}/c\d+\.s?html$', url)` of the 10jqka branch. -/
def tenjqkaToks : List Tok :=
  [.lit '/', .ds 8, .lit '/', .lit 'c', .dPlus, .lit '.', .optChar 's',
   .lit 'h', .lit 't', .lit 'm', .lit 'l', .eos]

/-- `re.search(r'newsDetail_forward_\d+', url)` of the thepaper branch. -/
def ndfToks : List Tok := "newsDetail_forward_".toList.map Tok.lit ++ [Tok.dPlus]

/-- The thepaper.cn-specific rejection conditions (allowed host, article
id well-formedness, allowed channel). -/
def paperReject (url netloc : String) : Bool :=
  if netloc ≠ "www.thepaper.cn" then true
  else if containsSub url "newsDetail_forward_" then
    ¬ (searchToks ndfToks url.toList).isSome
  else ¬ containsSub url "channel_25951"

/-- The `date_patterns` loop of `is_valid_url`: groups of the first
pattern (`/YYYYMMDD/`, then `/YYYY-MM-DD/`) that matches the URL. -/
def pathDateGroups (url : List Char) : Option (Nat × Nat × Nat) :=
  match searchToks [.lit '/', .ds 4, .ds 2, .ds 2, .lit '/'] url with
  | some [ys, ms, dstr] => some (pyInt ys, pyInt ms, pyInt dstr)
  | some _ => none
  | none =>
    match searchToks [.lit '/', .ds 4, .lit '-', .ds 2, .lit '-', .ds 2, .lit '/'] url with
    | some [ys, ms, dstr] => some (pyInt ys, pyInt ms, pyInt dstr)
    | some _ => none
    | none => none

/-- The freshness stage of `is_valid_url`: no path date means no
rejection on this basis; an unconstructible date raises (`.error`); a
date more than 90 days before now rejects. -/
def freshE (now : DT) (url : List Char) : Except Unit Bool :=
  match pathDateGroups url with
  | none => .ok true
  | some (y, m, d) =>
    match mkDateO y m d with
    | none => .error ()
    | some date => .ok (decide (deltaDays now date ≤ 90))

/-- The body of `is_valid_url` (the `try` block). -/
def isValidUrlE (robots : String → String → Bool) (now : DT)
    (url currentDomain : String) : Except Unit Bool :=
  let parsed := urlparseM url
  if ¬ robots url parsed.netloc then .ok false
  else if containsSub currentDomain "10jqka.com.cn" then
    if ¬ (parsed.netloc = "news.10jqka.com.cn" ∨ parsed.netloc = "stock.10jqka.com.cn") then
      .ok false
    else if ¬ (searchToks tenjqkaToks url.toList).isSome then .ok false
    else .ok true
  else if containsSub currentDomain "caijing.com.cn" ∧
      ¬ (parsed.netloc = "finance.caijing.com.cn" ∨ parsed.netloc = "economy.caijing.com.cn") then
    .ok false
  else if containsSub currentDomain "caixin.com" ∧
      (¬ (parsed.netloc = "economy.caixin.com" ∨ parsed.netloc = "finance.caixin.com") ∨
       containsSub url "?" ∨ containsSub url "100923808") then
    .ok false
  else if containsSub currentDomain "thepaper.cn" ∧ paperReject url parsed.netloc then
    .ok false
  else if ¬ containsSub currentDomain "thepaper.cn" ∧
      ¬ containsSub parsed.netloc currentDomain then
    .ok false
  else if ¬ (parsed.scheme = "http" ∨ parsed.scheme = "https") then .ok false
  else if [".jpg", ".png", ".pdf", ".zip"].any (fun e => containsSub url e) then .ok false
  else freshE now url.toList

/-- `is_valid_url`: the `try` body with `except Exception: return False`. -/
def isValidUrl (robots : String → String → Bool) (now : DT)
    (url currentDomain : String) : Bool :=
  match isValidUrlE robots now url currentDomain with
  | .ok b => b
  | .error _ => false

/-! ## Fetch client (`Downloader` in `crawler/common/downloader.py`)

`get` validates the URL shape, pre-resolves DNS, then runs the bounded
retry loop.  The network is abstracted by `net : Nat → Bool` (did
attempt `i` succeed); the model returns, beside the result, the number
of network attempts issued and the number of backoff sleeps performed,
which is what the fail-fast claim is about. -/

inductive DlErr where
  /-- `NetworkError("无效的URL格式 ...")`. -/
  | invalidUrl
  /-- `NetworkError("DNS解析失败 ...")`. -/
  | dnsFail
  /-- the last classified error after exhausting retries. -/
  | netFail
  deriving DecidableEq, Repr

/-- `Downloader._validate_url`: `all([result.scheme, result.netloc])`. -/
def validateUrl (url : String) : Bool :=
  (urlparseM url).scheme ≠ "" && (urlparseM url).netloc ≠ ""

/-- The `for attempt in range(retry_times)` loop: returns (success?,
attempts issued, backoff sleeps).  A sleep happens only after a failed
attempt that is not the last one. -/
def runRetries (net : Nat → Bool) : Nat → Nat → Bool × Nat × Nat
  | 0, _ => (false, 0, 0)
  | rem + 1, i =>
    if net i then (true, 1, 0)
    else
      let r := runRetries net rem (i + 1)
      (r.1, r.2.1 + 1, r.2.2 + if rem > 0 then 1 else 0)

/-- `Downloader.get`: URL validation and DNS pre-check fail fast (no
attempt, no backoff); otherwise the retry loop runs; exhausted retries
raise the last error (`retry_times = 0` falls through to `return None`). -/
def downloaderGet (retryTimes : Nat) (dns : String → Bool) (net : Nat → Bool)
    (url : String) : Except DlErr (Option Unit) × Nat × Nat :=
  if ¬ validateUrl url then (.error .invalidUrl, 0, 0)
  else if ¬ dns (urlparseM url).netloc then (.error .dnsFail, 0, 0)
  else
    let r := runRetries net retryTimes 0
    (if r.1 then .ok (some ()) else if retryTimes = 0 then .ok none else .error .netFail,
     r.2.1, r.2.2)

/-! ## Per-domain frontier (`MultiSiteCrawler.crawl_site`,
`crawler/caijing/core/crawler.py` 516-563)

State of one domain's crawl: the pending queue (`url_queues[domain]`),
the visited set and the URLs for which a fetch task has been created.
`dispatch` models the inner while: `popleft`, and if the URL is not yet
visited, mark it and create the task; `skipVisited` the `popleft` of an
already-visited URL; `enqueue` models `url_queues[domain].extend(new_links)`
for the links of a completed task — `_extract_links` filters each anchor
through `is_valid_url` but performs no de-duplication, so a page may
contribute the same URL several times and URLs already queued or
visited are appended again. -/

structure FrontierState where
  queue : List String
  visited : List String
  dispatched : List String
  deriving DecidableEq, Repr

inductive FStep : FrontierState → FrontierState → Prop where
  | dispatch (u : String) (rest : List String) (s : FrontierState) :
      s.queue = u :: rest → u ∉ s.visited →
      FStep s ⟨rest, u :: s.visited, s.dispatched ++ [u]⟩
  | skipVisited (u : String) (rest : List String) (s : FrontierState) :
      s.queue = u :: rest → u ∈ s.visited →
      FStep s ⟨rest, s.visited, s.dispatched⟩
  | enqueue (links : List String) (s : FrontierState) :
      FStep s ⟨s.queue ++ links, s.visited, s.dispatched⟩

/-- The queue is seeded with the site's start URL. -/
def frontierInit (startUrl : String) : FrontierState := ⟨[startUrl], [], []⟩

inductive FReach (startUrl : String) : FrontierState → Prop where
  | init : FReach startUrl (frontierInit startUrl)
  | step {s s' : FrontierState} : FReach startUrl s → FStep s s' → FReach startUrl s'

/-! ## Quota counters (`MultiSiteCrawler.parse_article` step 5 +
`save_article` counter updates)

`parse_article` returns `None` (no save) once
`saved_articles_count[domain] >= max_per_site` or
`total_articles >= max_articles`; a successful save increments both
counters.  There is no `await` between the check and the increments
(`save_article` performs no awaiting operation), so under the
single-threaded cooperative scheduler the check-then-increment pair is
atomic, which the `persist` step models.  `candidateOk` stands for the
cache/parse/retention/length gates, `todayOk` for the per-day cap. -/

structure QuotaState where
  saved : String → Nat
  total : Nat

inductive QStep (maxArticles maxPerSite : Nat) : QuotaState → QuotaState → Prop where
  | persist (d : String) (s : QuotaState) (candidateOk todayOk : Bool) :
      candidateOk = true → todayOk = true →
      s.saved d < maxPerSite → s.total < maxArticles →
      QStep maxArticles maxPerSite s
        ⟨fun d' => if d' = d then s.saved d + 1 else s.saved d', s.total + 1⟩
  | skip (s : QuotaState) : QStep maxArticles maxPerSite s s

def quotaInit : QuotaState := ⟨fun _ => 0, 0⟩

inductive QReach (maxArticles maxPerSite : Nat) : QuotaState → Prop where
  | init : QReach maxArticles maxPerSite quotaInit
  | step {s s' : QuotaState} : QReach maxArticles maxPerSite s →
      QStep maxArticles maxPerSite s s' → QReach maxArticles maxPerSite s'

/-! ## Body cleanup, line-filter stage
(`ArticleExtractor._clean_content` step 6, `crawler/common/article.py`
426-481)

The regex stages 1-5 strip script/style/boilerplate from the raw
concatenation upstream; stage 6 splits into at most
`MAX_LINES_DOWNLOADED = 150` lines and runs the filter loop modelled
here.  `found` is `valid_content_found` (set when an accepted line
contains CJK text), `ec` is `empty_line_count`. -/

/-- CJK character test, the `[一-龥]` class. -/
def isCJK (c : Char) : Bool := 0x4e00 ≤ c.toNat && c.toNat ≤ 0x9fa5

/-- Does the line contain CJK text? -/
def hasCJK (s : String) : Bool := s.toList.any isCJK

/-- The code/style tokens whose presence (in the lower-cased line) drops
the line. -/
def codeTokens : List String :=
  ["function", "var ", "document.", "window.", "\x7b", "\x7d", ";",
   "javascript", ".css", "#", "@", "==", "++", "--"]

/-- `any(x in para.lower() for x in [...])`. -/
def looksLikeCode (para : String) : Bool :=
  codeTokens.any (fun tok => containsSub (String.mk (para.toList.map asciiLower)) tok)

/-- The CJK punctuation listed in the pure-punctuation character class. -/
def cjkPunct : List Char :=
  "。，、；：？！…—·ˉ¨〃々～‖∶＂＇｀｜〔〕〈〉《》「」『』．〖〗【】（）［］｛｝".toList

/-- Membership in the character class of the pure-punctuation line
pattern: digits, whitespace, ASCII symbols (codes 33-47, 58-64, 91,
93-96, 123-126 — backslash is not in the class) and the CJK punctuation. -/
def isPunctLineChar (c : Char) : Bool :=
  isDigitCh c || isWsCh c ||
  (33 ≤ c.toNat && c.toNat ≤ 47) || (58 ≤ c.toNat && c.toNat ≤ 64) ||
  c.toNat = 91 || (93 ≤ c.toNat && c.toNat ≤ 96) ||
  (123 ≤ c.toNat && c.toNat ≤ 126) || cjkPunct.contains c

/-- `re.match(r'^[\d\s!...｛｝]+$', para)`: every character is in the
class (and the line is non-empty). -/
def isPurePunct (para : String) : Bool :=
  para ≠ "" && para.toList.all isPunctLineChar

/-- Two consecutive CJK characters (`re.search(r'[一-龥]{2,}')`). -/
def hasTwoConsecCJK : List Char → Bool
  | a :: b :: rest => (isCJK a && isCJK b) || hasTwoConsecCJK (b :: rest)
  | _ => false

/-- The navigation-menu drop: `^[^，。！？\n]{1,10}$` matches and the line
has no run of two CJK characters. -/
def navMenuSkip (para : String) : Bool :=
  (1 ≤ para.length && para.length ≤ 10 &&
   para.toList.all (fun c => ¬ (c = '，' ∨ c = '。' ∨ c = '！' ∨ c = '？' ∨ c = '\n'))) &&
  ¬ hasTwoConsecCJK para.toList

/-- The stage-6 loop over the (at most 150) lines. -/
def cleanAux : List String → List String → Bool → Nat → List String
  | [], _, _, _ => []
  | l :: rest, seen, found, ec =>
    let para := normalizeWS l
    if para = "" then
      if found = true ∧ ec + 1 ≥ 3 then []
      else cleanAux rest seen found (ec + 1)
    else
      if para.length < 2 then cleanAux rest seen found 0
      else if para ∈ seen then cleanAux rest seen found 0
      else if looksLikeCode para then cleanAux rest seen found 0
      else if para.length < 10 ∧ hasCJK para = false then cleanAux rest seen found 0
      else if isPurePunct para then cleanAux rest seen found 0
      else if navMenuSkip para then cleanAux rest seen found 0
      else para :: cleanAux rest (para :: seen) (found || hasCJK para) 0

/-- Stage 6 of `_clean_content`: split into lines, truncate to
`MAX_LINES_DOWNLOADED = 150`, run the filter loop. -/
def cleanContentLines (content : String) : List String :=
  cleanAux (((splitChars (fun c => c = '\n') content.toList).map String.mk).take 150) [] false 0

/-! ## Concrete inputs used by counterexamples and witnesses -/

/-- A default-allow robots rule set (robots fetch failed or no rule). -/
def allowAll : String → String → Bool := fun _ _ => true

/-- A fixed "current time" for concrete evaluations: 2024-05-01 00:00. -/
def nowX : DT := ⟨⟨2024, 5, 1⟩, 0⟩

/-- A 10jqka article URL whose embedded date 2024-01-01 is 121 days
before `nowX`. -/
def tenUrl : String := "https://news.10jqka.com.cn/20240101/c12345.shtml"

/-- A URL with an unconstructible embedded date (month 13, day 32). -/
def badDateUrl : String := "https://example.com/20241332/a.html"

/-- A URL whose path carries no date. -/
def noDateUrl : String := "https://example.com/economy/a.html"

/-- The frontier state of the C1 counterexample trace. -/
def cexStart : String := "https://caijing.com.cn/"

/-- A link occurring twice on the fetched start page. -/
def cexLink : String := "https://economy.caijing.com.cn/20260101/1.shtml"

/-- Frontier state after dispatching the start URL and enqueueing the
links of its page, which lists `cexLink` twice. -/
def cexState : FrontierState := ⟨[cexLink, cexLink], [cexStart], [cexStart]⟩

/-! # Theorems -/

/-! ## String lemmas -/

theorem listHasPref_append (pat Y : List Char) : listHasPref pat (pat ++ Y) = true := by
  induction pat with
  | nil => rfl
  | cons a ps ih => simp [listHasPref, ih]

theorem listHasSub_mid (X pat Y : List Char) :
    listHasSub (X ++ (pat ++ Y)) pat = true := by
  induction X with
  | nil =>
    cases pat with
    | nil => cases Y <;> simp [listHasSub, listHasPref]
    | cons a ps =>
      have h := listHasPref_append (a :: ps) Y
      rw [List.cons_append] at h
      simp [listHasSub, h]
  | cons x xs ih =>
    show (listHasPref pat (x :: (xs ++ (pat ++ Y))) || listHasSub (xs ++ (pat ++ Y)) pat) = true
    rw [ih]
    simp

/-- `(a ++ b).toList = a.toList ++ b.toList` for Lean strings. -/
theorem toList_append_str (a b : String) : (a ++ b).toList = a.toList ++ b.toList := by
  cases a; cases b; rfl

/-! ## C2: the extraction-pipeline validation gate -/

theorem fromHtml_some_nonempty {url : String} {ext : ExtractResult} {a : ArticleM}
    (h : fromHtml url ext = some a) :
    a.title ≠ "" ∧ a.publishDate.isSome ∧ a.summary ≠ "" := by
  simp only [fromHtml] at h
  split at h
  · exact absurd h (by simp)
  · split at h
    · exact absurd h (by simp)
    · split at h
      · exact absurd h (by simp)
      · rename_i h1 h2 h3
        cases h
        exact ⟨h1, Option.ne_none_iff_isSome.mp h2, h3⟩

/-- C2.  An `Article` is produced by the extraction pipeline only when
title, publish date and body text are all non-empty; when any of the
three extraction results is empty, `parse_article` returns `None` and
nothing is handed to the store. -/
theorem c2_article_gate (htmlOk configOk urlNonEmpty hasSel : Bool)
    (url : String) (ext : ExtractResult) :
    (∀ a, parseArticleP htmlOk configOk urlNonEmpty hasSel url ext = some a →
      a.title ≠ "" ∧ a.publishDate.isSome ∧ a.summary ≠ "") ∧
    ((ext.title = "" ∨ ext.publishDate = none ∨ ext.summary = "") →
      parseArticleP htmlOk configOk urlNonEmpty hasSel url ext = none ∧
      storeCalls (parseArticleP htmlOk configOk urlNonEmpty hasSel url ext) = []) := by
  constructor
  · intro a h
    unfold parseArticleP at h
    split at h
    · exact absurd h (by simp)
    · split at h
      · exact absurd h (by simp)
      · split at h
        · exact absurd h (by simp)
        · split at h
          · exact absurd h (by simp)
          · cases hf : fromHtml url ext with
            | none => rw [hf] at h; exact absurd h (by simp)
            | some article =>
              rw [hf] at h
              simp only at h
              split at h
              · exact absurd h (by simp)
              · cases h
                exact fromHtml_some_nonempty hf
  · intro hempty
    have hnone : parseArticleP htmlOk configOk urlNonEmpty hasSel url ext = none := by
      have hfrom : fromHtml url ext = none := by
        rcases hempty with h | h | h <;> simp [fromHtml, mkParsedArticle, h]
      unfold parseArticleP
      split
      · rfl
      · split
        · rfl
        · split
          · rfl
          · split
            · rfl
            · rw [hfrom]
    exact ⟨hnone, by rw [hnone]; rfl⟩

/-- C2 witness: concrete empty-title extraction is rejected and nothing
reaches the store. -/
theorem c2_article_gate_witness :
    parseArticleP true true true true "https://example.com/a"
      ⟨"", some ⟨2024, 3, 22⟩, "", "正文内容"⟩ = none ∧
    storeCalls (parseArticleP true true true true "https://example.com/a"
      ⟨"", some ⟨2024, 3, 22⟩, "", "正文内容"⟩) = [] :=
  (c2_article_gate true true true true "https://example.com/a"
    ⟨"", some ⟨2024, 3, 22⟩, "", "正文内容"⟩).2 (Or.inl rfl)

/-! ## C9: fetch fail-fast -/

/-- C9.  `Downloader.get` raises on a URL lacking scheme or host before
any network attempt and with no retry; a failing DNS pre-resolution
also raises with zero attempts and zero backoff sleeps. -/
theorem c9_fetch_fail_fast (retryTimes : Nat) (dns : String → Bool)
    (net : Nat → Bool) (url : String) :
    (validateUrl url = false →
      downloaderGet retryTimes dns net url = (.error .invalidUrl, 0, 0)) ∧
    (validateUrl url = true → dns (urlparseM url).netloc = false →
      downloaderGet retryTimes dns net url = (.error .dnsFail, 0, 0)) := by
  constructor
  · intro h
    simp [downloaderGet, h]
  · intro h hd
    simp [downloaderGet, h, hd]

/-- C9 witness: a scheme-less URL fails fast, and a DNS-failing host
fails fast, both with zero attempts and zero sleeps. -/
theorem c9_fetch_fail_fast_witness :
    downloaderGet 3 (fun _ => false) (fun _ => true) "example.com/foo"
      = (.error .invalidUrl, 0, 0) ∧
    downloaderGet 3 (fun _ => false) (fun _ => true) "https://nohost.test/x"
      = (.error .dnsFail, 0, 0) :=
  ⟨(c9_fetch_fail_fast 3 (fun _ => false) (fun _ => true) "example.com/foo").1 (by decide),
   (c9_fetch_fail_fast 3 (fun _ => false) (fun _ => true) "https://nohost.test/x").2
     (by decide) rfl⟩

/-! ## C10: totality of `is_valid_url` -/

/-- C10.  `is_valid_url` is total: its body's only raising operation is
the `datetime` construction from a URL-embedded date, and the
surrounding `except` turns any such error into `False` (the URL is
rejected, not enqueued); on non-raising runs the body's boolean is
returned unchanged. -/
theorem c10_is_valid_url_total (robots : String → String → Bool) (now : DT)
    (url cd : String) :
    (∀ e, isValidUrlE robots now url cd = .error e →
      isValidUrl robots now url cd = false) ∧
    (∀ b, isValidUrlE robots now url cd = .ok b →
      isValidUrl robots now url cd = b) := by
  constructor
  · intro e h
    unfold isValidUrl
    rw [h]
  · intro b h
    unfold isValidUrl
    rw [h]

/-- C10 witness: on `/20241332/` (month 13, day 32) the body raises at
the date construction and `is_valid_url` returns `False`. -/
theorem c10_is_valid_url_total_witness :
    isValidUrlE allowAll nowX badDateUrl "example.com" = .error () ∧
    isValidUrl allowAll nowX badDateUrl "example.com" = false :=
  ⟨rfl, (c10_is_valid_url_total allowAll nowX badDateUrl "example.com").1 () rfl⟩

/-! ## C3: idempotence of the save path -/

theorem listHasSub_append_left (X R pat : List Char) (h : listHasSub R pat = true) :
    listHasSub (X ++ R) pat = true := by
  induction X with
  | nil => simpa using h
  | cons x xs ih =>
    show (listHasPref pat (x :: (xs ++ R)) || listHasSub (xs ++ R) pat) = true
    rw [ih]
    simp

theorem listHasSub_self_append (pat Y : List Char) : listHasSub (pat ++ Y) pat = true := by
  simpa using listHasSub_mid [] pat Y

/-- The text written for an article embeds its own `来源：<url>` line, so
a re-run finds a matching source URL in the existing file. -/
theorem toText_contains_source (a : ArticleS) :
    containsSub (toText a) ("来源：" ++ a.url) = true := by
  unfold containsSub toText
  split <;>
  · simp only [toList_append_str, List.append_assoc]
    apply listHasSub_append_left
    apply listHasSub_append_left
    apply listHasSub_append_left
    apply listHasSub_append_left
    apply listHasSub_append_left
    rw [← List.append_assoc]
    exact listHasSub_self_append _ _

theorem fsLookup_cons_self (p c : String) (fs : List (String × String)) :
    fsLookup ((p, c) :: fs) p = some c := by
  simp [fsLookup, List.find?]

/-- A state whose filesystem already holds the article's own text at the
derived path is left unchanged by `save_article`. -/
theorem saveArticle_of_written (pyHash : String → Int) (saveDir cfgDomain : String)
    (a : ArticleS) (s' : StoreState)
    (h : fsLookup s'.fs (savePath pyHash saveDir cfgDomain a) = some (toText a)) :
    saveArticle pyHash saveDir cfgDomain a s' = s' := by
  simp only [saveArticle]
  rw [h]
  simp [toText_contains_source a]

/-- C3.  The store's save path is idempotent: a second `save_article`
with the identical article finds the freshly written file, whose
embedded source URL matches, and changes nothing (no write, no counter
increment, no cache update); the first save on a fresh path writes
exactly one file and bumps the counters once. -/
theorem c3_save_idempotent (pyHash : String → Int) (saveDir cfgDomain : String)
    (a : ArticleS) (s : StoreState) :
    saveArticle pyHash saveDir cfgDomain a (saveArticle pyHash saveDir cfgDomain a s) =
      saveArticle pyHash saveDir cfgDomain a s ∧
    (fsLookup s.fs (savePath pyHash saveDir cfgDomain a) = none →
      (saveArticle pyHash saveDir cfgDomain a s).fs =
        (savePath pyHash saveDir cfgDomain a, toText a) :: s.fs ∧
      (saveArticle pyHash saveDir cfgDomain a s).savedCount = s.savedCount + 1 ∧
      (saveArticle pyHash saveDir cfgDomain a s).totalCount = s.totalCount + 1) := by
  constructor
  · have hsave1 : saveArticle pyHash saveDir cfgDomain a s = s ∨
        (saveArticle pyHash saveDir cfgDomain a s).fs =
          (savePath pyHash saveDir cfgDomain a, toText a) :: s.fs := by
      simp only [saveArticle]
      cases h : fsLookup s.fs (savePath pyHash saveDir cfgDomain a) with
      | none => right; rfl
      | some content =>
        by_cases hc : containsSub content ("来源：" ++ a.url) = true
        · left; simp [hc]
        · right; simp [hc]
    rcases hsave1 with h1 | h1
    · rw [h1]; exact h1
    · exact saveArticle_of_written _ _ _ _ _ (by rw [h1]; exact fsLookup_cons_self _ _ _)
  · intro h
    simp only [saveArticle]
    rw [h]
    exact ⟨rfl, rfl, rfl⟩

/-- C3 witness: a concrete double save from an empty store leaves
exactly the one written file and counters at 1. -/
theorem c3_save_idempotent_witness :
    saveArticle (fun _ => 7) "data" "example.com"
      ⟨"https://example.com/20240322/1.html", "标题A", ⟨2024, 3, 22⟩, [], "正文"⟩
      (saveArticle (fun _ => 7) "data" "example.com"
        ⟨"https://example.com/20240322/1.html", "标题A", ⟨2024, 3, 22⟩, [], "正文"⟩
        ⟨[], 0, 0, []⟩) =
      saveArticle (fun _ => 7) "data" "example.com"
        ⟨"https://example.com/20240322/1.html", "标题A", ⟨2024, 3, 22⟩, [], "正文"⟩
        ⟨[], 0, 0, []⟩ ∧
    (saveArticle (fun _ => 7) "data" "example.com"
      ⟨"https://example.com/20240322/1.html", "标题A", ⟨2024, 3, 22⟩, [], "正文"⟩
      ⟨[], 0, 0, []⟩).savedCount = 1 :=
  have h := c3_save_idempotent (fun _ => 7) "data" "example.com"
    ⟨"https://example.com/20240322/1.html", "标题A", ⟨2024, 3, 22⟩, [], "正文"⟩
    ⟨[], 0, 0, []⟩
  ⟨h.1, (h.2 rfl).2.1⟩

/-! ## C1: the frontier invariant

The claim asserts the visited-set check happens *before enqueue*, so a
domain's frontier holds each URL at most once at every point of the
run.  In the source the check happens at *dequeue* time
(`crawler.py:531`), while `url_queues[domain].extend(new_links)`
(`crawler.py:558`) appends the filtered links of a completed page
unconditionally — `_extract_links` performs no de-duplication — so the
queue can legitimately hold a URL twice.  The counterexample drives the
machine through one dispatch of the start URL and one enqueue of a page
that links the same article twice. -/

/-- C1 counterexample: a reachable frontier state whose queue contains
the same URL twice — the claimed at-most-once queue invariant fails. -/
theorem c1_frontier_duplicate_counterexample :
    FReach cexStart cexState ∧ cexState.queue.count cexLink = 2 := by
  constructor
  · have h1 : FStep (frontierInit cexStart) ⟨[], [cexStart], [cexStart]⟩ :=
      FStep.dispatch cexStart [] (frontierInit cexStart) rfl (by simp [frontierInit])
    have h2 : FStep ⟨[], [cexStart], [cexStart]⟩ cexState :=
      FStep.enqueue [cexLink, cexLink] ⟨[], [cexStart], [cexStart]⟩
    exact FReach.step (FReach.step FReach.init h1) h2
  · rfl

/-- C1 (amended).  What the dequeue-time visited check does guarantee:
a URL is dispatched (has a fetch task created for it) at most once per
run — the dispatched list of every reachable frontier state has no
duplicates, and every dispatched URL is in the visited set.  The queue
itself may transiently hold a URL more than once. -/
theorem c1_dispatch_at_most_once (startUrl : String) (s : FrontierState)
    (h : FReach startUrl s) :
    s.dispatched.Nodup ∧ ∀ u ∈ s.dispatched, u ∈ s.visited := by
  induction h with
  | init => simp [frontierInit]
  | step hr hs ih =>
    obtain ⟨hnd, hsub⟩ := ih
    cases hs with
    | dispatch u rest s hq hv =>
      constructor
      · simp only [List.nodup_append, List.nodup_cons]
        exact ⟨hnd, by simp, by
          intro v hvmem hveq
          simp at hveq
          exact hv (hveq ▸ hsub v hvmem)⟩
      · intro v hvmem
        simp only [List.mem_append, List.mem_singleton] at hvmem
        rcases hvmem with hvd | hvu
        · exact List.mem_cons_of_mem _ (hsub v hvd)
        · simp [hvu]
    | skipVisited u rest s hq hv => exact ⟨hnd, hsub⟩
    | enqueue links s => exact ⟨hnd, hsub⟩

/-- C1 witness: the amended invariant evaluated on a concrete reachable
state with one dispatched URL. -/
theorem c1_dispatch_at_most_once_witness :
    (FrontierState.mk [] [cexStart] [cexStart]).dispatched.Nodup ∧
    ∀ u ∈ (FrontierState.mk [] [cexStart] [cexStart]).dispatched,
      u ∈ (FrontierState.mk [] [cexStart] [cexStart]).visited :=
  c1_dispatch_at_most_once cexStart ⟨[], [cexStart], [cexStart]⟩
    (FReach.step FReach.init
      (FStep.dispatch cexStart [] (frontierInit cexStart) rfl (by simp [frontierInit])))

/-! ## C4: quota enforcement -/

/-- C4.  In every reachable state of the quota machine the per-site
counter never exceeds `max_per_site` and the global counter never
exceeds `max_articles`; moreover from a state where a site has reached
`max_per_site` no step increments that site's counter, and from a state
where the global count has reached `max_articles` no step increments
any counter at all. -/
theorem c4_quota_enforcement (maxArticles maxPerSite : Nat) (s : QuotaState)
    (h : QReach maxArticles maxPerSite s) :
    ((∀ d, s.saved d ≤ maxPerSite) ∧ s.total ≤ maxArticles) ∧
    (∀ s', QStep maxArticles maxPerSite s s' →
      (∀ d, s.saved d = maxPerSite → s'.saved d = s.saved d) ∧
      (s.total = maxArticles → s'.total = s.total ∧ ∀ d, s'.saved d = s.saved d)) := by
  constructor
  · induction h with
    | init => exact ⟨fun _ => Nat.zero_le _, Nat.zero_le _⟩
    | step hr hst ih =>
      obtain ⟨hsv, htot⟩ := ih
      cases hst with
      | persist d s cOk tOk hc ht hlt1 hlt2 =>
        refine ⟨fun d' => ?_, ?_⟩
        · dsimp only
          by_cases hd : d' = d
          · rw [if_pos hd]
            have := hsv d
            subst hd
            omega
          · rw [if_neg hd]
            exact hsv d'
        · dsimp only
          omega
      | skip s => exact ⟨hsv, htot⟩
  · intro s' hst
    cases hst with
    | persist d s cOk tOk hc ht hlt1 hlt2 =>
      constructor
      · intro d' hd'
        dsimp only
        by_cases hd : d' = d
        · exact absurd (hd ▸ hd') (by omega)
        · rw [if_neg hd]
      · intro htot
        exact absurd htot (by omega)
    | skip s => exact ⟨fun _ _ => rfl, fun _ => ⟨rfl, fun _ => rfl⟩⟩

/-- C4 witness: the quota invariant evaluated at the initial state with
both caps set to 1. -/
theorem c4_quota_enforcement_witness :
    ((∀ d, quotaInit.saved d ≤ 1) ∧ quotaInit.total ≤ 1) ∧
    (∀ s', QStep 1 1 quotaInit s' →
      (∀ d, quotaInit.saved d = 1 → s'.saved d = quotaInit.saved d) ∧
      (quotaInit.total = 1 → s'.total = quotaInit.total ∧
        ∀ d, s'.saved d = quotaInit.saved d)) :=
  c4_quota_enforcement 1 1 quotaInit QReach.init

/-! ## C5: two-digit years and month/day range rejection -/

/-- C5.  In date normalisation: (1) any matched year below 100 that
survives validation is interpreted as calendar year `2000 + yy`; (2) a
month outside `1..12` or a day outside `1..31` makes the pattern's
interpretation fail; (3) a pattern whose interpretation fails falls
through to the next candidate pattern of the table; (4) with no pattern
remaining, extraction fails. -/
theorem c5_two_digit_year_and_range_rejection :
    (∀ y m d dt, y < 100 → finishYMD y m d = some dt → dt.date.year = 2000 + y) ∧
    (∀ y m d, ¬ (1 ≤ m ∧ m ≤ 12) ∨ ¬ (1 ≤ d ∧ d ≤ 31) → finishYMD y m d = none) ∧
    (∀ now text toks rest gs, searchToks toks text = some gs →
      processParts now gs = none →
      tryPats now text (toks :: rest) = tryPats now text rest) ∧
    (∀ now text, tryPats now text [] = none) := by
  refine ⟨?_, ?_, ?_, ?_⟩
  · intro y m d dt hy h
    unfold finishYMD at h
    split at h
    all_goals
      first
      | (unfold mkDateO at h
         split at h
         · rw [Option.map_some'] at h
           have h2 := Option.some.inj h
           subst h2
           dsimp only
           omega
         · simp at h)
      | exact absurd hy (by assumption)
      | simp at h
  · intro y m d h
    unfold finishYMD
    split
    · rename_i hcond
      rcases h with h | h <;> exact absurd hcond (by tauto)
    · rfl
  · intro now text toks rest gs h1 h2
    simp [tryPats, h1, h2]
  · intro now text
    rfl

/-- C5 witness: `24` resolves to 2024, month 13 / day 32 is rejected,
a matched-but-rejected pattern falls through, the empty table fails. -/
theorem c5_two_digit_year_and_range_rejection_witness :
    ((⟨⟨2024, 3, 22⟩, 0⟩ : DT).date.year = 2000 + 24) ∧
    finishYMD 2024 13 32 = none ∧
    tryPats nowX "99".toList ([Tok.ds 2] :: []) = tryPats nowX "99".toList [] ∧
    tryPats nowX "no date".toList [] = none :=
  ⟨c5_two_digit_year_and_range_rejection.1 24 3 22 ⟨⟨2024, 3, 22⟩, 0⟩ (by decide) (by decide),
   c5_two_digit_year_and_range_rejection.2.1 2024 13 32 (Or.inl (by decide)),
   c5_two_digit_year_and_range_rejection.2.2.1 nowX "99".toList [Tok.ds 2] [] ["99"]
     (by decide) (by decide),
   c5_two_digit_year_and_range_rejection.2.2.2 nowX "no date".toList⟩

/-! ## C6: date normalisation round-trip -/

/-- C6.  Each supported format's representative literal parses to the
expected calendar date: the ISO, CJK, two-digit-year and both English
month-name orders all yield the expected dates for every current time,
`"3天前"` yields `now - timedelta(days=3)` (same time of day, calendar
date moved back three days), and at a concrete month boundary
(2024-03-02, a leap year) three days before lands on 2024-02-28. -/
theorem c6_date_round_trip :
    (∀ now, extractDate now "2024-03-22" = some ⟨⟨2024, 3, 22⟩, 0⟩) ∧
    (∀ now, extractDate now "2024年3月22日" = some ⟨⟨2024, 3, 22⟩, 0⟩) ∧
    (∀ now, extractDate now "24-03-22" = some ⟨⟨2024, 3, 22⟩, 0⟩) ∧
    (∀ now, extractDate now "Dec 7, 2024" = some ⟨⟨2024, 12, 7⟩, 0⟩) ∧
    (∀ now, extractDate now "7 Dec 2024" = some ⟨⟨2024, 12, 7⟩, 0⟩) ∧
    (∀ now, extractDate now "3天前" = some (dtSubDays now 3)) ∧
    extractDate ⟨⟨2024, 3, 2⟩, 500⟩ "3天前" = some ⟨⟨2024, 2, 28⟩, 500⟩ :=
  ⟨fun _ => rfl, fun _ => rfl, fun _ => rfl, fun _ => rfl, fun _ => rfl,
   fun _ => rfl, by decide⟩

/-! ## C7: the body-cleanup line filter -/

/-- One unfolding step of the stage-6 loop. -/
theorem cleanAux_cons (l : String) (rest seen : List String) (found : Bool) (ec : Nat) :
    cleanAux (l :: rest) seen found ec =
      (let para := normalizeWS l
       if para = "" then
         if found = true ∧ ec + 1 ≥ 3 then [] else cleanAux rest seen found (ec + 1)
       else
         if para.length < 2 then cleanAux rest seen found 0
         else if para ∈ seen then cleanAux rest seen found 0
         else if looksLikeCode para then cleanAux rest seen found 0
         else if para.length < 10 ∧ hasCJK para = false then cleanAux rest seen found 0
         else if isPurePunct para then cleanAux rest seen found 0
         else if navMenuSkip para then cleanAux rest seen found 0
         else para :: cleanAux rest (para :: seen) (found || hasCJK para) 0) := rfl

/-- Accepted lines are pairwise distinct and none of them was in the
seen-set the loop started from. -/
theorem cleanAux_nodup_fresh (ls : List String) :
    ∀ seen found ec, (cleanAux ls seen found ec).Nodup ∧
      ∀ p ∈ cleanAux ls seen found ec, p ∉ seen := by
  induction ls with
  | nil => intro seen found ec; simp [cleanAux]
  | cons l rest ih =>
    intro seen found ec
    simp only [cleanAux]
    split
    · split
      · simp
      · exact ih seen found (ec + 1)
    · split
      · exact ih seen found 0
      · split
        · exact ih seen found 0
        · split
          · exact ih seen found 0
          · split
            · exact ih seen found 0
            · split
              · exact ih seen found 0
              · split
                · exact ih seen found 0
                · obtain ⟨hnd, hfresh⟩ :=
                    ih (normalizeWS l :: seen) (found || hasCJK (normalizeWS l)) 0
                  constructor
                  · exact List.nodup_cons.mpr
                      ⟨fun hc => (hfresh _ hc) (List.mem_cons_self _ _), hnd⟩
                  · intro p hp
                    rcases List.mem_cons.mp hp with rfl | hp'
                    · assumption
                    · exact fun hseen => hfresh p hp' (List.mem_cons_of_mem _ hseen)

/-- Every accepted line passed all the drop guards. -/
theorem cleanAux_mem_props (ls : List String) :
    ∀ seen found ec p, p ∈ cleanAux ls seen found ec →
      p ≠ "" ∧ ¬ p.length < 2 ∧ ¬ looksLikeCode p = true ∧
      ¬ (p.length < 10 ∧ hasCJK p = false) ∧ ¬ isPurePunct p = true := by
  induction ls with
  | nil => intro seen found ec p hp; simp [cleanAux] at hp
  | cons l rest ih =>
    intro seen found ec p hp
    simp only [cleanAux] at hp
    split at hp
    · split at hp
      · simp at hp
      · exact ih _ _ _ _ hp
    · split at hp
      · exact ih _ _ _ _ hp
      · split at hp
        · exact ih _ _ _ _ hp
        · split at hp
          · exact ih _ _ _ _ hp
          · split at hp
            · exact ih _ _ _ _ hp
            · split at hp
              · exact ih _ _ _ _ hp
              · split at hp
                · exact ih _ _ _ _ hp
                · rcases List.mem_cons.mp hp with rfl | hp'
                  · exact ⟨by assumption, by assumption, by assumption,
                      by assumption, by assumption⟩
                  · exact ih _ _ _ _ hp'

/-- While no CJK line has been accepted (`valid_content_found` still
false), three blank lines do not stop the loop: the remaining lines are
still consumed. -/
theorem cleanAux_append_no_cjk (ls : List String) :
    ∀ seen ec rest, (∀ l ∈ ls, hasCJK (normalizeWS l) = false) →
    ∃ seen' ec', cleanAux (ls ++ rest) seen false ec =
      cleanAux ls seen false ec ++ cleanAux rest seen' false ec' := by
  induction ls with
  | nil => intro seen ec rest _; exact ⟨seen, ec, by simp [cleanAux]⟩
  | cons l tail ih =>
    intro seen ec rest h
    have hl : hasCJK (normalizeWS l) = false := h l (List.mem_cons_self l tail)
    have htail : ∀ x ∈ tail, hasCJK (normalizeWS x) = false :=
      fun x hx => h x (List.mem_cons_of_mem l hx)
    rw [List.cons_append]
    by_cases h1 : normalizeWS l = ""
    · have hbreak : ¬(false = true ∧ ec + 1 ≥ 3) := by simp
      rw [cleanAux_cons, cleanAux_cons]
      dsimp only
      simp only [if_pos h1, if_neg hbreak]
      exact ih seen (ec + 1) rest htail
    · rw [cleanAux_cons, cleanAux_cons]
      dsimp only
      simp only [if_neg h1]
      by_cases h2 : (normalizeWS l).length < 2
      · simp only [if_pos h2]; exact ih seen 0 rest htail
      · simp only [if_neg h2]
        by_cases h3 : normalizeWS l ∈ seen
        · simp only [if_pos h3]; exact ih seen 0 rest htail
        · simp only [if_neg h3]
          by_cases h4 : looksLikeCode (normalizeWS l) = true
          · simp only [if_pos h4]; exact ih seen 0 rest htail
          · simp only [if_neg h4]
            by_cases h5 : (normalizeWS l).length < 10 ∧ hasCJK (normalizeWS l) = false
            · simp only [if_pos h5]; exact ih seen 0 rest htail
            · simp only [if_neg h5]
              by_cases h6 : isPurePunct (normalizeWS l) = true
              · simp only [if_pos h6]; exact ih seen 0 rest htail
              · simp only [if_neg h6]
                by_cases h7 : navMenuSkip (normalizeWS l) = true
                · simp only [if_pos h7]; exact ih seen 0 rest htail
                · simp only [if_neg h7, hl, Bool.or_false]
                  obtain ⟨seen', ec', heq⟩ := ih (normalizeWS l :: seen) 0 rest htail
                  exact ⟨seen', ec', by rw [heq, List.cons_append]⟩

/-- C7.  The stage-6 line filter: accepted lines are de-duplicated;
every accepted line is non-blank, at least 2 characters, not code-like,
not a short non-CJK line, not pure punctuation; once a CJK line has been
accepted (`valid_content_found`), three consecutive blank lines end the
loop and all following lines are discarded; before any CJK line has
been accepted, three blank lines only bump the counter and the
remaining lines are still consumed; and a short CJK-only line is
accepted (the minimum-length drop exempts CJK text). -/
theorem c7_clean_content_filter :
    (∀ content, (cleanContentLines content).Nodup) ∧
    (∀ content p, p ∈ cleanContentLines content →
      p ≠ "" ∧ ¬ p.length < 2 ∧ ¬ looksLikeCode p = true ∧
      ¬ (p.length < 10 ∧ hasCJK p = false) ∧ ¬ isPurePunct p = true) ∧
    (∀ rest seen, cleanAux ("" :: "" :: "" :: rest) seen true 0 = []) ∧
    (∀ rest seen ec, cleanAux ("" :: "" :: "" :: rest) seen false ec =
      cleanAux rest seen false (ec + 3)) ∧
    (∀ ls seen ec rest, (∀ l ∈ ls, hasCJK (normalizeWS l) = false) →
      ∃ seen' ec', cleanAux (ls ++ rest) seen false ec =
        cleanAux ls seen false ec ++ cleanAux rest seen' false ec') ∧
    cleanContentLines "这是一个测试" = ["这是一个测试"] := by
  refine ⟨?_, ?_, ?_, ?_, ?_, ?_⟩
  · intro content
    exact (cleanAux_nodup_fresh _ [] false 0).1
  · intro content p hp
    exact cleanAux_mem_props _ [] false 0 p hp
  · intro rest seen
    rfl
  · intro rest seen ec
    rfl
  · exact cleanAux_append_no_cjk
  · decide

/-- C7 witness: the guard properties evaluated on the accepted line of a
concrete input, and the no-stop property on a concrete CJK-free prefix. -/
theorem c7_clean_content_filter_witness :
    ("这是一个测试" ≠ "" ∧ ¬ ("这是一个测试" : String).length < 2 ∧
      ¬ looksLikeCode "这是一个测试" = true ∧
      ¬ (("这是一个测试" : String).length < 10 ∧ hasCJK "这是一个测试" = false) ∧
      ¬ isPurePunct "这是一个测试" = true) ∧
    (∃ seen' ec', cleanAux (["english"] ++ ["第二段正文内容测试"]) [] false 0 =
      cleanAux ["english"] [] false 0 ++ cleanAux ["第二段正文内容测试"] seen' false ec') :=
  ⟨c7_clean_content_filter.2.1 "这是一个测试" "这是一个测试" (by decide),
   c7_clean_content_filter.2.2.2.2.1 ["english"] [] 0 ["第二段正文内容测试"] (by decide)⟩

/-! ## C8: link-filter freshness

The claim asserts the 90-day freshness rule for *every* discovered URL
with a parseable path date.  The 10jqka.com.cn branch of `is_valid_url`
(`crawler.py:169-178`) returns `True` as soon as the URL matches its
article pattern `.*/\d{8}/c\d+\.s?html$` — before the date-freshness
loop runs — so a 10jqka article URL carrying an arbitrarily old
`/YYYYMMDD/` date is accepted.  For every other domain the freshness
rule holds, and a URL without a path date is never rejected on this
basis. -/

/-- C8 counterexample: a 10jqka URL whose embedded date is 121 days old
(> 90) is accepted by `is_valid_url`. -/
theorem c8_freshness_counterexample :
    isValidUrl allowAll nowX tenUrl "10jqka.com.cn" = true ∧
    pathDateGroups tenUrl.toList = some (2024, 1, 1) ∧
    deltaDays nowX ⟨2024, 1, 1⟩ = 121 ∧ (90 : Int) < 121 := by
  refine ⟨by decide, by decide, by decide, by decide⟩

/-- C8 (amended).  For every current domain outside the 10jqka special
case (whose branch accepts matching article URLs without a freshness
check), an accepted URL whose path carries a parseable date has a
constructible date at most 90 days older than now; and a URL whose path
carries no date passes the freshness stage unconditionally. -/
theorem c8_freshness_except_tenjqka (robots : String → String → Bool) (now : DT)
    (url cd : String) (h10 : containsSub cd "10jqka.com.cn" = false) :
    (isValidUrl robots now url cd = true →
      ∀ y m d, pathDateGroups url.toList = some (y, m, d) →
        ∃ date, mkDateO y m d = some date ∧ deltaDays now date ≤ 90) ∧
    (pathDateGroups url.toList = none → freshE now url.toList = .ok true) := by
  constructor
  · intro hacc y m d hg
    have hfresh : freshE now url.toList = .ok true := by
      simp only [isValidUrl, isValidUrlE] at hacc
      split at hacc
      case h_2 => simp at hacc
      case h_1 b heq =>
        subst hacc
        split at heq
        · simp at heq
        · split at heq
          · rename_i hcontra
            rw [h10] at hcontra
            exact absurd hcontra (by simp)
          · split at heq
            · simp at heq
            · split at heq
              · simp at heq
              · split at heq
                · simp at heq
                · split at heq
                  · simp at heq
                  · split at heq
                    · simp at heq
                    · split at heq
                      · simp at heq
                      · exact heq
    unfold freshE at hfresh
    rw [hg] at hfresh
    dsimp only at hfresh
    cases hmk : mkDateO y m d with
    | none => rw [hmk] at hfresh; simp at hfresh
    | some date =>
      rw [hmk] at hfresh
      simp only [Except.ok.injEq] at hfresh
      exact ⟨date, rfl, of_decide_eq_true hfresh⟩
  · intro hn
    unfold freshE
    rw [hn]

/-- C8 witness: a non-10jqka domain and a URL without a path date pass
the freshness stage unconditionally. -/
theorem c8_freshness_except_tenjqka_witness :
    freshE nowX noDateUrl.toList = .ok true :=
  (c8_freshness_except_tenjqka allowAll nowX noDateUrl "example.com" (by decide)).2
    (by decide)

end Crawlers
